import Mathlib

/-!
Verification development for the `the-grid-x` coordinator control plane.

The definitions below are a shallow embedding of the Python sources of the
repository.  SQL tables (`user_credits`, `user_auth`, `workers`, `jobs`) are
modelled as association lists keyed by their primary-key column, with SQL
`UPDATE ... WHERE` statements translated to row-wise maps over the list and
`rowcount` to the number of matched rows.  REAL columns and wall-clock
timestamps are modelled as rationals; the wall clock (`now()` in Python) is
threaded through every mutating operation as an explicit argument.
-/

namespace GridX

/-! ## Association-list primitives (SQL tables, Python dicts) -/

/-- First value bound to key `k`, as a SQL `SELECT ... WHERE pk=k LIMIT 1`
or a Python dict `get`. -/
def lookupKey {α : Type} (rows : List (String × α)) (k : String) : Option α :=
  match rows with
  | [] => none
  | (k', v) :: rest => if k' = k then some v else lookupKey rest k

/-- Row-wise update of every row whose key is `k` (SQL `UPDATE ... WHERE pk=k`). -/
def updateRows {α : Type} (rows : List (String × α)) (k : String) (f : α → α) :
    List (String × α) :=
  match rows with
  | [] => []
  | (k', v) :: rest =>
      (if k' = k then (k', f v) else (k', v)) :: updateRows rest k f

/-- Python dict assignment `d[k] = v`: replace the binding in place if the key
is present, otherwise append a fresh binding. -/
def dictInsert {α : Type} (rows : List (String × α)) (k : String) (v : α) :
    List (String × α) :=
  match rows with
  | [] => [(k, v)]
  | (k', v') :: rest =>
      if k' = k then (k, v) :: rest else (k', v') :: dictInsert rest k v

/-- Python dict `pop(k, None)`: remove the binding of `k` (dict keys are unique,
so removing every matching binding is the same operation). -/
def removeKey {α : Type} (rows : List (String × α)) (k : String) : List (String × α) :=
  match rows with
  | [] => []
  | (k', v) :: rest =>
      if k' = k then removeKey rest k else (k', v) :: removeKey rest k

/-- Well-formedness of a table: primary-key column has no duplicates. -/
def keysNodup {α : Type} (rows : List (String × α)) : Prop :=
  (rows.map Prod.fst).Nodup

theorem lookupKey_updateRows_self {α : Type} (rows : List (String × α)) (k : String)
    (f : α → α) : lookupKey (updateRows rows k f) k = (lookupKey rows k).map f := by
  induction rows with
  | nil => rfl
  | cons p rest ih =>
      obtain ⟨k', v⟩ := p
      by_cases h : k' = k
      · rw [updateRows, if_pos h]
        rw [lookupKey, if_pos h, lookupKey, if_pos h]
        rfl
      · rw [updateRows, if_neg h]
        rw [lookupKey, if_neg h, lookupKey, if_neg h, ih]

theorem lookupKey_updateRows_ne {α : Type} (rows : List (String × α)) (k k' : String)
    (f : α → α) (hne : k' ≠ k) :
    lookupKey (updateRows rows k f) k' = lookupKey rows k' := by
  induction rows with
  | nil => rfl
  | cons p rest ih =>
      obtain ⟨ka, v⟩ := p
      by_cases h : ka = k
      · have hka : ka ≠ k' := by rw [h]; exact Ne.symm hne
        rw [updateRows, if_pos h]
        rw [lookupKey, if_neg hka, lookupKey, if_neg hka, ih]
      · rw [updateRows, if_neg h]
        by_cases h2 : ka = k'
        · rw [lookupKey, if_pos h2, lookupKey, if_pos h2]
        · rw [lookupKey, if_neg h2, lookupKey, if_neg h2, ih]

theorem lookupKey_dictInsert_self {α : Type} (rows : List (String × α)) (k : String)
    (v : α) : lookupKey (dictInsert rows k v) k = some v := by
  induction rows with
  | nil => rw [dictInsert, lookupKey, if_pos rfl]
  | cons p rest ih =>
      obtain ⟨k', v'⟩ := p
      by_cases h : k' = k
      · rw [dictInsert, if_pos h, lookupKey, if_pos rfl]
      · rw [dictInsert, if_neg h, lookupKey, if_neg h, ih]

theorem lookupKey_dictInsert_ne {α : Type} (rows : List (String × α)) (k k' : String)
    (v : α) (hne : k' ≠ k) :
    lookupKey (dictInsert rows k v) k' = lookupKey rows k' := by
  induction rows with
  | nil => simp [dictInsert, lookupKey, Ne.symm hne]
  | cons p rest ih =>
      obtain ⟨ka, va⟩ := p
      by_cases h : ka = k
      · have hka : ka ≠ k' := by rw [h]; exact Ne.symm hne
        rw [dictInsert, if_pos h, lookupKey, if_neg (Ne.symm hne), lookupKey,
          if_neg hka]
      · rw [dictInsert, if_neg h]
        by_cases h2 : ka = k'
        · rw [lookupKey, if_pos h2, lookupKey, if_pos h2]
        · rw [lookupKey, if_neg h2, lookupKey, if_neg h2, ih]

theorem lookupKey_removeKey_self {α : Type} (rows : List (String × α)) (k : String) :
    lookupKey (removeKey rows k) k = none := by
  induction rows with
  | nil => rfl
  | cons p rest ih =>
      obtain ⟨k', v⟩ := p
      by_cases h : k' = k
      · rw [removeKey, if_pos h, ih]
      · rw [removeKey, if_neg h, lookupKey, if_neg h, ih]

theorem mem_keys_dictInsert {α : Type} (rows : List (String × α)) (k k'' : String)
    (v : α) (hmem : k'' ∈ (dictInsert rows k v).map Prod.fst) :
    k'' = k ∨ k'' ∈ rows.map Prod.fst := by
  induction rows with
  | nil =>
      simp [dictInsert] at hmem
      exact Or.inl hmem
  | cons p rest ih =>
      obtain ⟨k', v'⟩ := p
      by_cases h : k' = k
      · rw [dictInsert, if_pos h] at hmem
        simp only [List.map_cons, List.mem_cons] at hmem ⊢
        rcases hmem with h1 | h1
        · exact Or.inl h1
        · exact Or.inr (Or.inr h1)
      · rw [dictInsert, if_neg h] at hmem
        simp only [List.map_cons, List.mem_cons] at hmem ⊢
        rcases hmem with h1 | h1
        · exact Or.inr (Or.inl h1)
        · rcases ih h1 with h2 | h2
          · exact Or.inl h2
          · exact Or.inr (Or.inr h2)

theorem keysNodup_dictInsert {α : Type} (rows : List (String × α)) (k : String) (v : α)
    (h : keysNodup rows) : keysNodup (dictInsert rows k v) := by
  induction rows with
  | nil => simp [dictInsert, keysNodup]
  | cons p rest ih =>
      obtain ⟨k', v'⟩ := p
      rw [keysNodup, List.map_cons, List.nodup_cons] at h
      by_cases hk : k' = k
      · subst hk
        rw [dictInsert, if_pos rfl, keysNodup, List.map_cons, List.nodup_cons]
        exact h
      · rw [dictInsert, if_neg hk, keysNodup, List.map_cons, List.nodup_cons]
        refine ⟨fun hmem => ?_, ih h.2⟩
        rcases mem_keys_dictInsert rest k k' v hmem with h1 | h1
        · exact hk h1
        · exact h.1 h1

theorem mem_keys_removeKey {α : Type} (rows : List (String × α)) (k k'' : String)
    (hmem : k'' ∈ (removeKey rows k).map Prod.fst) : k'' ∈ rows.map Prod.fst := by
  induction rows with
  | nil =>
      simp [removeKey] at hmem
  | cons p rest ih =>
      obtain ⟨k', v⟩ := p
      simp only [List.map_cons, List.mem_cons]
      by_cases h : k' = k
      · rw [removeKey, if_pos h] at hmem
        exact Or.inr (ih hmem)
      · rw [removeKey, if_neg h] at hmem
        simp only [List.map_cons, List.mem_cons] at hmem
        rcases hmem with h1 | h1
        · exact Or.inl h1
        · exact Or.inr (ih h1)

theorem keysNodup_removeKey {α : Type} (rows : List (String × α)) (k : String)
    (h : keysNodup rows) : keysNodup (removeKey rows k) := by
  induction rows with
  | nil => exact h
  | cons p rest ih =>
      obtain ⟨k', v⟩ := p
      rw [keysNodup, List.map_cons, List.nodup_cons] at h
      by_cases hk : k' = k
      · rw [removeKey, if_pos hk]
        exact ih h.2
      · rw [removeKey, if_neg hk, keysNodup, List.map_cons, List.nodup_cons]
        exact ⟨fun hmem => h.1 (mem_keys_removeKey rest k k' hmem), ih h.2⟩

/-! ## Data model (`coordinator/database.py`, table schemas of `db_init`) -/

/-- Row of the `user_credits` table (`user_id` primary key is the assoc-list key). -/
structure CreditRow where
  balance : ℚ
  updatedAt : ℚ
  deriving DecidableEq, Repr

/-- Row of the `user_auth` table. -/
structure UserAuthRow where
  authToken : String
  createdAt : ℚ
  lastLogin : ℚ
  deriving DecidableEq, Repr

/-- Row of the `workers` table.  The `restriction` column is not created by the
`db_init` revision in `coordinator/database.py`; it is the additive migration the
spec describes in section 6 and `main.py` manipulates through
`db_set_worker_restriction` (absent from src).  It is carried here so that
restriction-related claims can be stated; `db_upsert_worker` leaves it
untouched, exactly as an upsert whose column list omits `restriction` would. -/
structure WorkerRow where
  ip : String
  cpuCores : Int
  gpuCount : Int
  status : String
  lastHeartbeat : ℚ
  ownerId : String
  authToken : String
  restriction : Option String
  deriving DecidableEq, Repr

/-- Row of the `jobs` table.  `reservedCost` mirrors the `reserved_cost`
argument `main.py` passes to `db_create_job` (the spec's "reserved credit
amount" attribute); the older `database.py` revision in src does not persist it,
so settlement reads it from this field as the spec prescribes. -/
structure JobRow where
  userId : String
  code : String
  language : String
  status : String
  workerId : Option String
  createdAt : ℚ
  completedAt : Option ℚ
  stdout : String
  stderr : String
  reservedCost : ℚ
  deriving DecidableEq, Repr

/-- The SQLite database: four tables, each keyed by its primary-key column. -/
structure Db where
  jobs : List (String × JobRow)
  workers : List (String × WorkerRow)
  userAuth : List (String × UserAuthRow)
  userCredits : List (String × CreditRow)
  deriving DecidableEq, Repr

/-- Worker capabilities dict sent in `hello` frames.  Fields are optional to
model Python `dict.get` defaults (`can_execute` defaults to true in
`get_idle_worker_id`, `cpu_cores` to 0 in `db_upsert_worker`). -/
structure Caps where
  cpuCores : Option Int
  gpu : Bool
  canExecute : Option Bool
  deriving DecidableEq, Repr

/-- In-memory registry entry of `workers_ws` (`coordinator/workers.py`): one
live session per worker id.  `wsId` identifies the underlying websocket
object. -/
structure Session where
  wsId : Nat
  caps : Caps
  status : String
  lastSeen : ℚ
  ownerId : String
  deriving DecidableEq, Repr

/-! ## Credit ledger (`coordinator/credit_manager.py`) -/

/-- Default starting balance for new users
(`DEFAULT_INITIAL_BALANCE`, env default "100.0"). -/
def DEFAULT_INITIAL_BALANCE : ℚ := 100

/-- Reward fraction paid to the worker owner (`WORKER_REWARD`, env default "0.8"). -/
def WORKER_REWARD : ℚ := 8 / 10

/-- Shallow embedding of `credit_manager.ensure_user`: create the credits row
with `initial` balance if absent, return the current balance.  `t` is `now()`. -/
def ensure_user (db : Db) (t : ℚ) (userId : String) (initial : ℚ) : Db × ℚ :=
  match lookupKey db.userCredits userId with
  | some row => (db, row.balance)
  | none =>
      ({ db with userCredits := db.userCredits ++ [(userId, ⟨initial, t⟩)] }, initial)

/-- Shallow embedding of `credit_manager.get_balance`: current balance, 0 if
the user has no credits row. -/
def get_balance (db : Db) (userId : String) : ℚ :=
  match lookupKey db.userCredits userId with
  | none => 0
  | some row => row.balance

/-- Row scan of the guarded debit: every row matching
`user_id=userId AND balance>=amount` gets `balance := balance - amount` and a
fresh `updated_at`; the second component counts the matched rows (SQL
`rowcount`). -/
def creditsDeductRows (rows : List (String × CreditRow)) (t : ℚ) (userId : String)
    (amount : ℚ) : List (String × CreditRow) × Nat :=
  match rows with
  | [] => ([], 0)
  | (k, r) :: rest =>
      let res := creditsDeductRows rest t userId amount
      if k = userId ∧ amount ≤ r.balance then
        ((k, CreditRow.mk (r.balance - amount) t) :: res.1, res.2 + 1)
      else ((k, r) :: res.1, res.2)

/-- Shallow embedding of `credit_manager.deduct`: amounts `≤ 0` return true
immediately; otherwise run
`UPDATE user_credits SET balance=balance-amount, updated_at=now WHERE
user_id=userId AND balance>=amount` and report `rowcount > 0`. -/
def deduct (db : Db) (t : ℚ) (userId : String) (amount : ℚ) : Db × Bool :=
  if amount ≤ 0 then (db, true)
  else
    let res := creditsDeductRows db.userCredits t userId amount
    ({ db with userCredits := res.1 }, decide (0 < res.2))

/-- Shallow embedding of `credit_manager.credit`: amounts `≤ 0` are ignored;
otherwise ensure the user exists at balance 0, then add unconditionally. -/
def credit (db : Db) (t : ℚ) (userId : String) (amount : ℚ) : Db :=
  if amount ≤ 0 then db
  else
    let db1 := (ensure_user db t userId 0).1
    let rows' := updateRows db1.userCredits userId
      (fun r => { r with balance := r.balance + amount, updatedAt := t })
    { db1 with userCredits := rows' }

/-! ## Durable store operations (`coordinator/database.py`) -/

/-- Shallow embedding of `db_register_user`: insert into `user_auth`, and on
conflict overwrite `auth_token` and `last_login` (leaving `created_at`). -/
def db_register_user (db : Db) (t : ℚ) (userId authToken : String) : Db :=
  match lookupKey db.userAuth userId with
  | none =>
      { db with userAuth := db.userAuth ++ [(userId, ⟨authToken, t, t⟩)] }
  | some _ =>
      let rows' := updateRows db.userAuth userId
        (fun r => { r with authToken := authToken, lastLogin := t })
      { db with userAuth := rows' }

/-- Shallow embedding of `db_verify_user_auth`: the row exists and its stored
token equals the submitted one. -/
def db_verify_user_auth (db : Db) (userId authToken : String) : Bool :=
  match lookupKey db.userAuth userId with
  | none => false
  | some r => r.authToken = authToken

/-- Capabilities as read by `db_upsert_worker`:
`cpu_cores = int(caps.get("cpu_cores") or 0)` and
`gpu_count = int(1 if caps.get("gpu") else 0)`. -/
def capsCpuCores (caps : Caps) : Int := (caps.cpuCores.getD 0)

def capsGpuCount (caps : Caps) : Int := if caps.gpu then 1 else 0

/-- Shallow embedding of `db_upsert_worker`: when both `owner_id` and
`auth_token` are non-empty it first calls `db_register_user`; then it inserts
the worker row, and on id conflict overwrites every listed column (`ip`,
`cpu_cores`, `gpu_count`, `status`, `last_heartbeat`, `owner_id`,
`auth_token`) — the `restriction` column is not in the column list and is
preserved. -/
def db_upsert_worker (db : Db) (t : ℚ) (workerId ip : String) (caps : Caps)
    (status : String) (ownerId authToken : String) : Db :=
  let db1 := if ownerId ≠ "" ∧ authToken ≠ "" then
      db_register_user db t ownerId authToken
    else db
  match lookupKey db1.workers workerId with
  | none =>
      { db1 with workers := db1.workers ++
          [(workerId, ⟨ip, capsCpuCores caps, capsGpuCount caps, status, t,
            ownerId, authToken, none⟩)] }
  | some _ =>
      let rows' := updateRows db1.workers workerId
        (fun r => { r with ip := ip, cpuCores := capsCpuCores caps,
                           gpuCount := capsGpuCount caps, status := status,
                           lastHeartbeat := t, ownerId := ownerId,
                           authToken := authToken })
      { db1 with workers := rows' }

/-- Shallow embedding of `db_set_worker_status`. -/
def db_set_worker_status (db : Db) (t : ℚ) (workerId status : String) : Db :=
  let rows' := updateRows db.workers workerId
    (fun r => { r with status := status, lastHeartbeat := t })
  { db with workers := rows' }

/-- Shallow embedding of `db_set_worker_offline`. -/
def db_set_worker_offline (db : Db) (t : ℚ) (workerId : String) : Db :=
  db_set_worker_status db t workerId "offline"

/-- Modelled from the spec: `db_set_worker_restriction` is imported by
`coordinator/main.py` but its definition (a newer `database.py` revision) is
not under src; per section 6 the `restriction` column is an additive worker
attribute set by the admin endpoints. -/
def db_set_worker_restriction (db : Db) (workerId : String)
    (restriction : Option String) : Db :=
  let rows' := updateRows db.workers workerId
    (fun r => { r with restriction := restriction })
  { db with workers := rows' }

/-- Shallow embedding of `db_get_worker_by_auth`: the worker row matching
owner and token with the greatest `last_heartbeat` (SQL
`ORDER BY last_heartbeat DESC LIMIT 1`; ties resolved to the earlier row). -/
def db_get_worker_by_auth (db : Db) (ownerId authToken : String) :
    Option (String × WorkerRow) :=
  (db.workers.filter
    (fun p => p.2.ownerId = ownerId ∧ p.2.authToken = authToken)).foldl
    (fun acc p =>
      match acc with
      | none => some p
      | some q => if q.2.lastHeartbeat < p.2.lastHeartbeat then some p else some q)
    none

/-- Shallow embedding of `db_create_job`: insert a fresh `queued` row.  The
`reserved` argument records `main.py`'s `reserved_cost` (see `JobRow`). -/
def db_create_job (db : Db) (t : ℚ) (jobId userId code language : String)
    (reserved : ℚ) : Db :=
  { db with jobs := db.jobs ++
      [(jobId, ⟨userId, code, language, "queued", none, t, none, "", "", reserved⟩)] }

/-- Shallow embedding of `db_set_job_assigned`. -/
def db_set_job_assigned (db : Db) (jobId workerId : String) : Db :=
  let rows' := updateRows db.jobs jobId
    (fun r => { r with status := "assigned", workerId := some workerId })
  { db with jobs := rows' }

/-- Shallow embedding of `db_set_job_running`. -/
def db_set_job_running (db : Db) (jobId : String) : Db :=
  { db with jobs := updateRows db.jobs jobId (fun r => { r with status := "running" }) }

/-- Shallow embedding of `db_set_job_completed`: status is `completed` when the
exit code is 0 and `failed` otherwise; `completed_at`, `stdout` and `stderr`
are written in the same update. -/
def db_set_job_completed (db : Db) (t : ℚ) (jobId : String) (stdout stderr : String)
    (exitCode : Int) : Db :=
  let status := if exitCode = 0 then "completed" else "failed"
  let rows' := updateRows db.jobs jobId
    (fun r => { r with status := status, completedAt := some t,
                       stdout := stdout, stderr := stderr })
  { db with jobs := rows' }

/-- Shallow embedding of `db_get_job`. -/
def db_get_job (db : Db) (jobId : String) : Option JobRow :=
  lookupKey db.jobs jobId

/-! ## Worker registry (`coordinator/workers.py`) -/

/-- Coordinator owner id (`COORDINATOR_OWNER`, env default "coordinator"). -/
def COORDINATOR_OWNER : String := "coordinator"

/-- Capability gate used by selection: `caps.get("can_execute", True)`. -/
def sessionCanExecute (s : Session) : Bool := s.caps.canExecute.getD true

/-- The three owner buckets accumulated by the selection loop of
`get_idle_worker_id` (`other_workers`, `coordinator_workers`,
`owner_workers`), in iteration order. -/
structure Buckets where
  other : List String
  coord : List String
  owner : List String
  deriving DecidableEq, Repr

/-- Selection loop of `get_idle_worker_id`: skip workers that are not idle or
cannot execute, then bucket by owner; a worker whose owner is empty falls into
the `other` bucket because the Python truthiness test `owner and ...` fails. -/
def collectBuckets (coordOwner : String) (excludeOwner : Option String) :
    List (String × Session) → Buckets
  | [] => ⟨[], [], []⟩
  | (wid, w) :: rest =>
      let b := collectBuckets coordOwner excludeOwner rest
      if w.status = "idle" ∧ sessionCanExecute w then
        if w.ownerId ≠ "" ∧ excludeOwner = some w.ownerId then
          { b with owner := wid :: b.owner }
        else if w.ownerId ≠ "" ∧ w.ownerId = coordOwner then
          { b with coord := wid :: b.coord }
        else
          { b with other := wid :: b.other }
      else b

/-- Shallow embedding of `workers.get_idle_worker_id`: prefer other workers,
then the coordinator-owned device, then the submitter's own workers. -/
def get_idle_worker_id (coordOwner : String) (reg : List (String × Session))
    (excludeOwner : Option String) : Option String :=
  let b := collectBuckets coordOwner excludeOwner reg
  match b.other with
  | wid :: _ => some wid
  | [] =>
      match b.coord with
      | wid :: _ => some wid
      | [] =>
          match b.owner with
          | wid :: _ => some wid
          | [] => none

/-- Shallow embedding of `workers.register_worker_ws`: dict assignment of a
fresh idle session (evicting any session previously held under the id). -/
def register_worker_ws (reg : List (String × Session)) (t : ℚ)
    (workerId : String) (wsId : Nat) (caps : Caps) (ownerId : String) :
    List (String × Session) :=
  dictInsert reg workerId ⟨wsId, caps, "idle", t, ownerId⟩

/-- Shallow embedding of `workers.unregister_worker_ws`: `pop(worker_id, None)`. -/
def unregister_worker_ws (reg : List (String × Session)) (workerId : String) :
    List (String × Session) :=
  removeKey reg workerId

/-! ## Coordinator state and dispatcher (`coordinator/coodinate2.py`) -/

/-- Combined coordinator state: the SQLite database, the in-memory
`workers_ws` registry and the FIFO `job_queue` (head = next dequeued). -/
structure Coord where
  db : Db
  reg : List (String × Session)
  queue : List String
  deriving DecidableEq, Repr

/-- First idle connected worker, in registry iteration order (the dispatch
loop of `coodinate2.py` checks only `status == "idle"`). -/
def firstIdle : List (String × Session) → Option String
  | [] => none
  | (wid, w) :: rest => if w.status = "idle" then some wid else firstIdle rest

/-- One pass of the dispatch loop of `coodinate2.dispatch`, with fuel bounding
the number of iterations (each iteration dequeues the head, so the initial
queue length suffices).  `sendOk` tells whether `ws.send` of the `assign_job`
frame succeeds for a given worker; on failure the assignment is reverted (the
worker back to idle in memory and store, the job back to `queued` with the
worker id cleared), the job id is re-enqueued with `job_queue.put` (tail), and
the loop returns. -/
def dispatchLoop (t : ℚ) (sendOk : String → Bool) : Coord → Nat → Coord
  | c, 0 => c
  | c, fuel + 1 =>
      match c.queue with
      | [] => c
      | jobId :: rest =>
          match firstIdle c.reg with
          | none => c
          | some wid =>
              match db_get_job c.db jobId with
              | none => dispatchLoop t sendOk { c with queue := rest } fuel
              | some _ =>
                  let reg1 := updateRows c.reg wid
                    (fun s => { s with status := "busy" })
                  let db1 := db_set_worker_status c.db t wid "busy"
                  let db2 := db_set_job_assigned db1 jobId wid
                  if sendOk wid then
                    dispatchLoop t sendOk { db := db2, reg := reg1, queue := rest }
                      fuel
                  else
                    let reg2 := updateRows reg1 wid
                      (fun s => { s with status := "idle" })
                    let db3 := db_set_worker_status db2 t wid "idle"
                    let jobs' := updateRows db3.jobs jobId
                      (fun r => { r with status := "queued", workerId := none })
                    { db := { db3 with jobs := jobs' }, reg := reg2,
                      queue := rest ++ [jobId] }

/-- Shallow embedding of `coodinate2.dispatch`. -/
def dispatch (c : Coord) (t : ℚ) (sendOk : String → Bool) : Coord :=
  dispatchLoop t sendOk c c.queue.length

/-! ## Job submission (`coordinator/main.py`, `submit_job`) -/

/-- Result of the submit handler: the success payload or the HTTP status of a
raised `HTTPException`. -/
inductive SubmitResult where
  | ok (jobId : String) (reserved : ℚ)
  | httpError (status : Nat)
  deriving DecidableEq, Repr

/-- HTTP status used for economic failures. -/
def HTTP_PAYMENT_REQUIRED : Nat := 402

/-- Shallow embedding of the credit-handling and job-creation section of
`main.submit_job` (the input validation above it and the computation of the
reserve from the timeout are not modelled: `jobId` stands for the generated
uuid and `reserved` for `get_max_reserve(timeout)`).  The final dispatch
trigger is the embedded dispatcher. -/
def submit_job (c : Coord) (t : ℚ) (userId code language jobId : String)
    (reserved : ℚ) (sendOk : String → Bool) : Coord × SubmitResult :=
  let db1 := (ensure_user c.db t userId DEFAULT_INITIAL_BALANCE).1
  let bal := get_balance db1 userId
  if bal < reserved then
    ({ c with db := db1 }, .httpError HTTP_PAYMENT_REQUIRED)
  else
    let res := deduct db1 t userId reserved
    if res.2 = false then
      ({ c with db := res.1 }, .httpError HTTP_PAYMENT_REQUIRED)
    else
      let db3 := db_create_job res.1 t jobId userId code language reserved
      let c1 : Coord := { db := db3, reg := c.reg, queue := c.queue ++ [jobId] }
      (dispatch c1 t sendOk, .ok jobId reserved)

/-! ## Lemmas about the guarded debit -/

theorem mem_of_lookupKey_eq_some {α : Type} {rows : List (String × α)} {k : String}
    {v : α} (h : lookupKey rows k = some v) : (k, v) ∈ rows := by
  induction rows with
  | nil => simp [lookupKey] at h
  | cons p rest ih =>
      obtain ⟨k', v'⟩ := p
      by_cases hk : k' = k
      · rw [lookupKey, if_pos hk] at h
        subst hk
        exact List.mem_cons.mpr (Or.inl (by rw [Option.some_inj] at h; rw [h]))
      · rw [lookupKey, if_neg hk] at h
        exact List.mem_cons.mpr (Or.inr (ih h))

theorem lookupKey_eq_some_of_mem {α : Type} {rows : List (String × α)} {k : String}
    {v : α} (hwf : keysNodup rows) (h : (k, v) ∈ rows) : lookupKey rows k = some v := by
  induction rows with
  | nil => simp at h
  | cons p rest ih =>
      obtain ⟨k', v'⟩ := p
      rw [keysNodup, List.map_cons, List.nodup_cons] at hwf
      rcases List.mem_cons.mp h with h1 | h1
      · rw [← h1, lookupKey, if_pos rfl]
      · have hk : k' ≠ k := by
          intro hkk
          subst hkk
          exact hwf.1 (List.mem_map.mpr ⟨(k', v), h1, rfl⟩)
        rw [lookupKey, if_neg hk]
        exact ih hwf.2 h1

theorem creditsDeductRows_count_pos {rows : List (String × CreditRow)} {t : ℚ}
    {u : String} {a : ℚ} (hwf : keysNodup rows) :
    0 < (creditsDeductRows rows t u a).2 ↔
      ∃ r, lookupKey rows u = some r ∧ a ≤ r.balance := by
  constructor
  · intro hpos
    induction rows with
    | nil => simp [creditsDeductRows] at hpos
    | cons p rest ih =>
        obtain ⟨k, r⟩ := p
        rw [keysNodup, List.map_cons, List.nodup_cons] at hwf
        by_cases hc : k = u ∧ a ≤ r.balance
        · exact ⟨r, by rw [lookupKey, if_pos hc.1], hc.2⟩
        · rw [creditsDeductRows, if_neg hc] at hpos
          rcases ih hwf.2 hpos with ⟨r', hr', ha'⟩
          refine ⟨r', ?_, ha'⟩
          have hk : k ≠ u := by
            intro hkk
            subst hkk
            exact hwf.1 (List.mem_map.mpr ⟨(k, r'), mem_of_lookupKey_eq_some hr', rfl⟩)
          rw [lookupKey, if_neg hk]
          exact hr'
  · rintro ⟨r, hr, ha⟩
    clear hwf
    induction rows with
    | nil => simp [lookupKey] at hr
    | cons p rest ih =>
        obtain ⟨k, r'⟩ := p
        by_cases hk : k = u
        · rw [lookupKey, if_pos hk] at hr
          rw [Option.some_inj] at hr
          subst hr
          rw [creditsDeductRows, if_pos ⟨hk, ha⟩]
          exact Nat.succ_pos _
        · rw [lookupKey, if_neg hk] at hr
          have := ih hr
          by_cases hc : k = u ∧ a ≤ r'.balance
          · exact absurd hc.1 hk
          · rw [creditsDeductRows, if_neg hc]
            exact this

theorem creditsDeductRows_lookup_self {rows : List (String × CreditRow)} {t : ℚ}
    {u : String} {a : ℚ} {r : CreditRow} (hr : lookupKey rows u = some r)
    (ha : a ≤ r.balance) :
    lookupKey (creditsDeductRows rows t u a).1 u = some ⟨r.balance - a, t⟩ := by
  induction rows with
  | nil => simp [lookupKey] at hr
  | cons p rest ih =>
      obtain ⟨k, r'⟩ := p
      by_cases hk : k = u
      · rw [lookupKey, if_pos hk] at hr
        rw [Option.some_inj] at hr
        subst hr
        rw [creditsDeductRows, if_pos ⟨hk, ha⟩, lookupKey, if_pos hk]
      · rw [lookupKey, if_neg hk] at hr
        by_cases hc : k = u ∧ a ≤ r'.balance
        · exact absurd hc.1 hk
        · rw [creditsDeductRows, if_neg hc, lookupKey, if_neg hk]
          exact ih hr

theorem creditsDeductRows_lookup_ne {rows : List (String × CreditRow)} {t : ℚ}
    {u v : String} {a : ℚ} (hne : v ≠ u) :
    lookupKey (creditsDeductRows rows t u a).1 v = lookupKey rows v := by
  induction rows with
  | nil => rfl
  | cons p rest ih =>
      obtain ⟨k, r⟩ := p
      by_cases hc : k = u ∧ a ≤ r.balance
      · have hk : k ≠ v := by rw [hc.1]; exact Ne.symm hne
        rw [creditsDeductRows, if_pos hc, lookupKey, if_neg hk, lookupKey, if_neg hk,
          ih]
      · rw [creditsDeductRows, if_neg hc]
        by_cases hk : k = v
        · rw [lookupKey, if_pos hk, lookupKey, if_pos hk]
        · rw [lookupKey, if_neg hk, lookupKey, if_neg hk, ih]

theorem creditsDeductRows_count_zero {rows : List (String × CreditRow)} {t : ℚ}
    {u : String} {a : ℚ} (hz : (creditsDeductRows rows t u a).2 = 0) :
    (creditsDeductRows rows t u a).1 = rows := by
  induction rows with
  | nil => rfl
  | cons p rest ih =>
      obtain ⟨k, r⟩ := p
      by_cases hc : k = u ∧ a ≤ r.balance
      · rw [creditsDeductRows, if_pos hc] at hz
        simp at hz
      · rw [creditsDeductRows, if_neg hc] at hz ⊢
        rw [ih hz]

/-! ## Claim C1 -/

/-- An empty database. -/
def emptyDb : Db := { jobs := [], workers := [], userAuth := [], userCredits := [] }

/-- C1 counterexample: `deduct` on an empty ledger with amount `0` returns
true although no credits row for the user exists, refuting the claimed
equivalence at this concrete input (the `amount <= 0` early return of
`credit_manager.deduct` skips the guarded update entirely). -/
theorem deduct_zero_amount_cex :
    ¬ (((deduct emptyDb 0 "alice" 0).2 = true) ↔
      ∃ r, lookupKey emptyDb.userCredits "alice" = some r ∧ (0 : ℚ) ≤ r.balance) := by
  intro h
  rcases h.mp (by decide) with ⟨r, hr, _⟩
  simp [emptyDb, lookupKey] at hr

/-- C1 (amended): for a positive amount, `deduct` returns true iff a credits
row for the user exists with balance at least the amount; on success that
balance decreases by exactly the amount and every other user's row is
untouched; on failure the database is returned unchanged.  For amounts `≤ 0`,
`deduct` returns true without touching any stored state. -/
theorem deduct_correct (db : Db) (t : ℚ) (u : String) (a : ℚ)
    (hwf : keysNodup db.userCredits) :
    (0 < a →
      (((deduct db t u a).2 = true) ↔
        ∃ r, lookupKey db.userCredits u = some r ∧ a ≤ r.balance)
      ∧ (∀ r, lookupKey db.userCredits u = some r → a ≤ r.balance →
          lookupKey (deduct db t u a).1.userCredits u =
            some ⟨r.balance - a, t⟩)
      ∧ (∀ v, v ≠ u →
          lookupKey (deduct db t u a).1.userCredits v = lookupKey db.userCredits v)
      ∧ ((deduct db t u a).2 = false → (deduct db t u a).1 = db))
    ∧ (a ≤ 0 → deduct db t u a = (db, true)) := by
  constructor
  · intro hpos
    have hnle : ¬ a ≤ 0 := not_le.mpr hpos
    refine ⟨?_, ?_, ?_, ?_⟩
    · rw [deduct, if_neg hnle]
      simpa using creditsDeductRows_count_pos (t := t) (a := a) hwf
    · intro r hr ha
      rw [deduct, if_neg hnle]
      exact creditsDeductRows_lookup_self hr ha
    · intro v hv
      rw [deduct, if_neg hnle]
      exact creditsDeductRows_lookup_ne hv
    · intro hfalse
      rw [deduct, if_neg hnle] at hfalse ⊢
      simp only [decide_eq_false_iff_not, not_lt, Nat.le_zero] at hfalse
      have := creditsDeductRows_count_zero (t := t) (u := u) (a := a) hfalse
      cases db
      simp_all
  · intro hle
    rw [deduct, if_pos hle]

/-- C1 witness: the amended theorem applied to a one-row ledger where alice
holds balance 10 and 2 credits are deducted. -/
theorem deduct_correct_witness :
    keysNodup (Db.mk [] [] [] [("alice", ⟨10, 0⟩)]).userCredits ∧
      (((deduct (Db.mk [] [] [] [("alice", ⟨10, 0⟩)]) 1 "alice" 2).2 = true) ↔
        ∃ r, lookupKey (Db.mk [] [] [] [("alice", ⟨10, 0⟩)]).userCredits "alice" =
          some r ∧ (2 : ℚ) ≤ r.balance) :=
  ⟨by simp [keysNodup],
    ((deduct_correct (Db.mk [] [] [] [("alice", ⟨10, 0⟩)]) 1 "alice" 2
      (by simp [keysNodup])).1 (by norm_num)).1⟩

/-! ## Claim C2 -/

/-- A coordinator with no workers, no jobs and no stored users. -/
def emptyCoord : Coord := { db := emptyDb, reg := [], queue := [] }

/-- Submitter state for scenario S2: alice holds balance 5. -/
def aliceLowCoord : Coord :=
  { db := { emptyDb with userCredits := [("alice", ⟨5, 0⟩)] }, reg := [],
    queue := [] }

/-- C2 counterexample: for a submitter with no credits row the current balance
reads 0, so a reserve of 6 exceeds it; yet `submit_job` succeeds and creates a
job row, because `ensure_user` first creates the row with the initial balance
of 100 and the 402 check runs against that balance. -/
theorem submit_fresh_user_cex :
    get_balance emptyCoord.db "alice" < 6 ∧
    (submit_job emptyCoord 0 "alice" "print(1)" "python" "job-1" 6
      (fun _ => true)).2 = SubmitResult.ok "job-1" 6 ∧
    db_get_job (submit_job emptyCoord 0 "alice" "print(1)" "python" "job-1" 6
      (fun _ => true)).1.db "job-1" ≠ none := by
  refine ⟨by norm_num [get_balance, emptyCoord, emptyDb, lookupKey], ?_, ?_⟩ <;>
    decide

/-- C2 (amended): when the submitter already has a credits row whose balance
is below the required reserve, `submit_job` fails with HTTP 402 and the entire
coordinator state (database, registry, queue) is returned unchanged. -/
theorem submit_insufficient_402 (c : Coord) (t : ℚ)
    (u code lang jobId : String) (reserved : ℚ) (sendOk : String → Bool)
    (r : CreditRow) (hrow : lookupKey c.db.userCredits u = some r)
    (hlt : r.balance < reserved) :
    submit_job c t u code lang jobId reserved sendOk =
      (c, SubmitResult.httpError 402) := by
  obtain ⟨db, reg, queue⟩ := c
  have h1 : ensure_user db t u DEFAULT_INITIAL_BALANCE = (db, r.balance) := by
    simp only [ensure_user]
    rw [hrow]
  have h2 : get_balance db u = r.balance := by
    simp only [get_balance]
    rw [hrow]
  simp only [submit_job, h1, h2]
  rw [if_pos hlt]
  rfl

/-- C2 witness: scenario S2 — balance 5, reserve 6 — yields 402 and leaves
the state untouched. -/
theorem submit_insufficient_402_witness :
    lookupKey aliceLowCoord.db.userCredits "alice" = some ⟨5, 0⟩ ∧
    (5 : ℚ) < 6 ∧
    submit_job aliceLowCoord 1 "alice" "print(1)" "python" "job-1" 6
      (fun _ => true) = (aliceLowCoord, SubmitResult.httpError 402) :=
  ⟨rfl, by norm_num,
    submit_insufficient_402 aliceLowCoord 1 "alice" "print(1)" "python" "job-1" 6
      (fun _ => true) ⟨5, 0⟩ rfl (by norm_num)⟩

/-! ## Claim C5 -/

/-- C5 (amended): when the dequeued job id has no record in the store, the
dispatcher discards that entry and continues with the rest of the queue,
assigning nothing for it; the persisted status of existing jobs is not
re-checked. -/
theorem dispatch_skips_missing_job (c : Coord) (t : ℚ) (sendOk : String → Bool)
    (jobId : String) (rest : List String) (wid : String)
    (hq : c.queue = jobId :: rest) (hw : firstIdle c.reg = some wid)
    (hmiss : db_get_job c.db jobId = none) :
    dispatch c t sendOk = dispatch { c with queue := rest } t sendOk := by
  simp only [dispatch, hq, List.length_cons, dispatchLoop, hw, hmiss]

/-- C5 witness: a one-entry queue whose job id is absent from the store is
discarded. -/
theorem dispatch_skips_missing_job_witness :
    (Coord.mk emptyDb [("w1", ⟨1, ⟨some 4, false, none⟩, "idle", 0, "bob"⟩)]
      ["jx"]).queue = "jx" :: [] ∧
    firstIdle (Coord.mk emptyDb
      [("w1", ⟨1, ⟨some 4, false, none⟩, "idle", 0, "bob"⟩)] ["jx"]).reg =
      some "w1" ∧
    db_get_job emptyDb "jx" = none ∧
    dispatch (Coord.mk emptyDb
        [("w1", ⟨1, ⟨some 4, false, none⟩, "idle", 0, "bob"⟩)] ["jx"]) 1
        (fun _ => true) =
      dispatch { Coord.mk emptyDb
        [("w1", ⟨1, ⟨some 4, false, none⟩, "idle", 0, "bob"⟩)] ["jx"] with
          queue := [] } 1 (fun _ => true) :=
  ⟨rfl, rfl, rfl,
    dispatch_skips_missing_job _ 1 (fun _ => true) "jx" [] "w1" rfl rfl rfl⟩

/-- A store where job j1 is already terminal (`completed`) yet its id is
still in the queue, and one idle worker is connected. -/
def staleQueueCoord : Coord :=
  { db := { emptyDb with jobs := [("j1",
      ⟨"alice", "print(1)", "python", "completed", none, 0, some 1, "", "", 0⟩)] },
    reg := [("w1", ⟨1, ⟨some 4, false, none⟩, "idle", 0, "bob"⟩)],
    queue := ["j1"] }

/-- C5 counterexample: the dispatcher does not re-check the persisted status —
job j1 is `completed` in the store, yet dispatch assigns it to worker w1 and
overwrites its status with `assigned`. -/
theorem dispatch_assigns_nonqueued_cex :
    (db_get_job staleQueueCoord.db "j1").map JobRow.status = some "completed" ∧
    (db_get_job (dispatch staleQueueCoord 2 (fun _ => true)).db "j1").map
      JobRow.status = some "assigned" ∧
    (db_get_job (dispatch staleQueueCoord 2 (fun _ => true)).db "j1").map
      JobRow.workerId = some (some "w1") := by
  decide

/-! ## Claim C6 -/

/-- C6 (amended): on `assign_job` send failure the dispatcher reverts — the
worker goes back to `idle` in registry and store, the job back to `queued`
with its assigned worker cleared — re-enqueues the job id at the tail of the
queue (`job_queue.put`), and the loop stops, leaving everything else exactly
in the reverted state. -/
theorem dispatch_send_failure_reverts (c : Coord) (t : ℚ)
    (sendOk : String → Bool) (jobId : String) (rest : List String)
    (wid : String) (job : JobRow) (s : Session) (hq : c.queue = jobId :: rest)
    (hw : firstIdle c.reg = some wid) (hjob : db_get_job c.db jobId = some job)
    (hs : lookupKey c.reg wid = some s) (hfail : sendOk wid = false) :
    lookupKey (dispatch c t sendOk).reg wid = some { s with status := "idle" }
    ∧ (∀ w, lookupKey c.db.workers wid = some w →
        lookupKey (dispatch c t sendOk).db.workers wid =
          some { w with status := "idle", lastHeartbeat := t })
    ∧ lookupKey (dispatch c t sendOk).db.jobs jobId =
        some { job with status := "queued", workerId := none }
    ∧ (dispatch c t sendOk).queue = rest ++ [jobId] := by
  refine ⟨?_, ?_, ?_, ?_⟩
  · simp only [dispatch, hq, List.length_cons, dispatchLoop, hw, hjob, hfail,
      Bool.false_eq_true, if_false]
    rw [lookupKey_updateRows_self, lookupKey_updateRows_self, hs]
    rfl
  · intro w hwrow
    simp only [dispatch, hq, List.length_cons, dispatchLoop, hw, hjob, hfail,
      Bool.false_eq_true, if_false, db_set_worker_status, db_set_job_assigned]
    rw [lookupKey_updateRows_self, lookupKey_updateRows_self, hwrow]
    rfl
  · simp only [dispatch, hq, List.length_cons, dispatchLoop, hw, hjob, hfail,
      Bool.false_eq_true, if_false, db_set_worker_status, db_set_job_assigned]
    rw [lookupKey_updateRows_self, lookupKey_updateRows_self]
    rw [show lookupKey c.db.jobs jobId = some job from hjob]
    rfl
  · simp only [dispatch, hq, List.length_cons, dispatchLoop, hw, hjob, hfail,
      Bool.false_eq_true, if_false]

/-- A coordinator with two queued jobs, one idle worker, and a dead send path
(`ws.send` raising for every worker). -/
def sendFailCoord : Coord :=
  { db := { emptyDb with
      jobs := [("j1", ⟨"alice", "print(1)", "python", "queued", none, 0, none,
                  "", "", 6⟩),
               ("j2", ⟨"alice", "print(2)", "python", "queued", none, 0, none,
                  "", "", 6⟩)],
      workers := [("w1", ⟨"10.0.0.1", 4, 0, "idle", 0, "bob", "tok", none⟩)] },
    reg := [("w1", ⟨1, ⟨some 4, false, none⟩, "idle", 0, "bob"⟩)],
    queue := ["j1", "j2"] }

/-- C6 witness: the amended theorem applied to `sendFailCoord` — after the
failed send of j1, the queue is j2 followed by j1. -/
theorem dispatch_send_failure_reverts_witness :
    sendFailCoord.queue = "j1" :: ["j2"] ∧
    firstIdle sendFailCoord.reg = some "w1" ∧
    db_get_job sendFailCoord.db "j1" =
      some ⟨"alice", "print(1)", "python", "queued", none, 0, none, "", "", 6⟩ ∧
    lookupKey sendFailCoord.reg "w1" =
      some ⟨1, ⟨some 4, false, none⟩, "idle", 0, "bob"⟩ ∧
    (fun _ : String => false) "w1" = false ∧
    (dispatch sendFailCoord 1 (fun _ => false)).queue = ["j2"] ++ ["j1"] :=
  ⟨rfl, rfl, rfl, rfl, rfl,
    (dispatch_send_failure_reverts sendFailCoord 1 (fun _ => false) "j1" ["j2"]
      "w1" ⟨"alice", "print(1)", "python", "queued", none, 0, none, "", "", 6⟩
      ⟨1, ⟨some 4, false, none⟩, "idle", 0, "bob"⟩ rfl rfl rfl rfl rfl).2.2.2⟩

/-- C6 counterexample: with jobs j1 and j2 queued in that order and the send
to the selected worker failing, the failed job j1 is re-enqueued at the tail,
so the next entry dequeued would be j2, not j1 — refuting the claimed
re-enqueue at the head. -/
theorem dispatch_reenqueue_tail_cex :
    (dispatch sendFailCoord 1 (fun _ => false)).queue = ["j2", "j1"] ∧
    (dispatch sendFailCoord 1 (fun _ => false)).queue.head? ≠ some "j1" := by
  decide

/-! ## Claim C4 -/

/-- Workers eligible for selection in `get_idle_worker_id`: idle and able to
execute (the loop's `continue` filter). -/
def eligiblePred (p : String × Session) : Prop :=
  p.2.status = "idle" ∧ sessionCanExecute p.2 = true

/-- Condition of the `owner_workers` bucket:
`owner and owner == exclude_owner`. -/
def bucketOwnerPred (ex : Option String) (p : String × Session) : Prop :=
  p.2.ownerId ≠ "" ∧ ex = some p.2.ownerId

/-- Condition of the `coordinator_workers` bucket (reached only when the
owner-bucket test failed): `owner and owner == COORDINATOR_OWNER`. -/
def bucketCoordPred (co : String) (ex : Option String) (p : String × Session) :
    Prop :=
  ¬ bucketOwnerPred ex p ∧ p.2.ownerId ≠ "" ∧ p.2.ownerId = co

/-- Condition of the `other_workers` bucket: both preceding tests failed. -/
def bucketOtherPred (co : String) (ex : Option String) (p : String × Session) :
    Prop :=
  ¬ bucketOwnerPred ex p ∧ ¬ (p.2.ownerId ≠ "" ∧ p.2.ownerId = co)

instance eligiblePredDecidable (p : String × Session) :
    Decidable (eligiblePred p) :=
  inferInstanceAs (Decidable (p.2.status = "idle" ∧ sessionCanExecute p.2 = true))

instance bucketOwnerPredDecidable (ex : Option String) (p : String × Session) :
    Decidable (bucketOwnerPred ex p) :=
  inferInstanceAs (Decidable (p.2.ownerId ≠ "" ∧ ex = some p.2.ownerId))

instance bucketCoordPredDecidable (co : String) (ex : Option String)
    (p : String × Session) : Decidable (bucketCoordPred co ex p) :=
  inferInstanceAs
    (Decidable (¬ bucketOwnerPred ex p ∧ p.2.ownerId ≠ "" ∧ p.2.ownerId = co))

instance bucketOtherPredDecidable (co : String) (ex : Option String)
    (p : String × Session) : Decidable (bucketOtherPred co ex p) :=
  inferInstanceAs
    (Decidable (¬ bucketOwnerPred ex p ∧ ¬ (p.2.ownerId ≠ "" ∧ p.2.ownerId = co)))

/-- Bucket filters: each bucket of the selection loop is the ordered filter of
the registry by the corresponding condition. -/
def otherFilter (co : String) (ex : Option String)
    (reg : List (String × Session)) : List (String × Session) :=
  reg.filter (fun p => decide (eligiblePred p ∧ bucketOtherPred co ex p))

def coordFilter (co : String) (ex : Option String)
    (reg : List (String × Session)) : List (String × Session) :=
  reg.filter (fun p => decide (eligiblePred p ∧ bucketCoordPred co ex p))

def ownerFilter (ex : Option String) (reg : List (String × Session)) :
    List (String × Session) :=
  reg.filter (fun p => decide (eligiblePred p ∧ bucketOwnerPred ex p))

theorem collectBuckets_eq (co : String) (ex : Option String)
    (reg : List (String × Session)) :
    collectBuckets co ex reg =
      ⟨(otherFilter co ex reg).map Prod.fst,
       (coordFilter co ex reg).map Prod.fst,
       (ownerFilter ex reg).map Prod.fst⟩ := by
  induction reg with
  | nil => rfl
  | cons p rest ih =>
      obtain ⟨w, sess⟩ := p
      rw [collectBuckets]
      by_cases h1 : sess.status = "idle" ∧ sessionCanExecute sess = true
      · rw [if_pos h1]
        by_cases h2 : sess.ownerId ≠ "" ∧ ex = some sess.ownerId
        · have e1 : decide (eligiblePred (w, sess) ∧ bucketOwnerPred ex (w, sess)) =
              true := decide_eq_true ⟨h1, h2⟩
          have e2 : decide (eligiblePred (w, sess) ∧ bucketCoordPred co ex (w, sess)) =
              false := decide_eq_false (fun hc => hc.2.1 h2)
          have e3 : decide (eligiblePred (w, sess) ∧ bucketOtherPred co ex (w, sess)) =
              false := decide_eq_false (fun hc => hc.2.1 h2)
          rw [if_pos h2]
          simp only [otherFilter, coordFilter, ownerFilter, List.filter_cons, e1,
            e2, e3, if_true, if_false, List.map_cons, ih, Bool.false_eq_true]
        · rw [if_neg h2]
          by_cases h3 : sess.ownerId ≠ "" ∧ sess.ownerId = co
          · have e1 : decide (eligiblePred (w, sess) ∧
                bucketOwnerPred ex (w, sess)) = false :=
              decide_eq_false (fun hc => h2 hc.2)
            have e2 : decide (eligiblePred (w, sess) ∧
                bucketCoordPred co ex (w, sess)) = true :=
              decide_eq_true ⟨h1, h2, h3.1, h3.2⟩
            have e3 : decide (eligiblePred (w, sess) ∧
                bucketOtherPred co ex (w, sess)) = false :=
              decide_eq_false (fun hc => hc.2.2 h3)
            rw [if_pos h3]
            simp only [otherFilter, coordFilter, ownerFilter, List.filter_cons, e1,
              e2, e3, if_true, if_false, List.map_cons, ih, Bool.false_eq_true]
          · have e1 : decide (eligiblePred (w, sess) ∧
                bucketOwnerPred ex (w, sess)) = false :=
              decide_eq_false (fun hc => h2 hc.2)
            have e2 : decide (eligiblePred (w, sess) ∧
                bucketCoordPred co ex (w, sess)) = false :=
              decide_eq_false (fun hc => h3 hc.2.2)
            have e3 : decide (eligiblePred (w, sess) ∧
                bucketOtherPred co ex (w, sess)) = true :=
              decide_eq_true ⟨h1, h2, h3⟩
            rw [if_neg h3]
            simp only [otherFilter, coordFilter, ownerFilter, List.filter_cons, e1,
              e2, e3, if_true, if_false, List.map_cons, ih, Bool.false_eq_true]
      · rw [if_neg h1]
        have e1 : decide (eligiblePred (w, sess) ∧ bucketOwnerPred ex (w, sess)) =
            false := decide_eq_false (fun hc => h1 hc.1)
        have e2 : decide (eligiblePred (w, sess) ∧ bucketCoordPred co ex (w, sess)) =
            false := decide_eq_false (fun hc => h1 hc.1)
        have e3 : decide (eligiblePred (w, sess) ∧ bucketOtherPred co ex (w, sess)) =
            false := decide_eq_false (fun hc => h1 hc.1)
        simp only [otherFilter, coordFilter, ownerFilter, List.filter_cons, e1, e2,
          e3, if_false, ih, Bool.false_eq_true]

theorem bucketOtherPred_iff {co sub : String} (hsub : sub ≠ "") (hco : co ≠ "")
    (p : String × Session) :
    bucketOtherPred co (some sub) p ↔
      p.2.ownerId ≠ sub ∧ p.2.ownerId ≠ co := by
  unfold bucketOtherPred bucketOwnerPred
  constructor
  · rintro ⟨hno, hnc⟩
    constructor
    · intro hx
      exact hno ⟨by rw [hx]; exact hsub, by rw [hx]⟩
    · intro hx
      exact hnc ⟨by rw [hx]; exact hco, hx⟩
  · rintro ⟨hns, hnc⟩
    constructor
    · rintro ⟨hne, hx⟩
      exact hns (Eq.symm (Option.some_inj.mp hx))
    · rintro ⟨hne, hx⟩
      exact hnc hx

theorem bucketCoordPred_iff {co sub : String} (hco : co ≠ "")
    (p : String × Session) :
    bucketCoordPred co (some sub) p ↔
      p.2.ownerId ≠ sub ∧ p.2.ownerId = co := by
  unfold bucketCoordPred bucketOwnerPred
  constructor
  · rintro ⟨hno, _, hc⟩
    refine ⟨fun hx => hno ⟨?_, by rw [hx]⟩, hc⟩
    rw [hc]; exact hco
  · rintro ⟨hns, hc⟩
    refine ⟨fun hx => hns (Eq.symm (Option.some_inj.mp hx.2)), ?_, hc⟩
    rw [hc]; exact hco

theorem bucketOwnerPred_iff {sub : String} (hsub : sub ≠ "")
    (p : String × Session) :
    bucketOwnerPred (some sub) p ↔ p.2.ownerId = sub := by
  unfold bucketOwnerPred
  constructor
  · rintro ⟨_, hx⟩
    exact Eq.symm (Option.some_inj.mp hx)
  · intro hx
    exact ⟨by rw [hx]; exact hsub, by rw [hx]⟩

/-- C4 (amended): for a nonempty submitter id and nonempty configured
coordinator owner, every worker returned by `get_idle_worker_id` is present in
the live registry with status idle and `can_execute` true (its stored
restriction is NOT consulted); among such workers one whose owner differs from
both the submitter and the coordinator owner is returned if any exists,
otherwise one owned by the coordinator owner (and not the submitter),
otherwise one owned by the submitter; and the selection returns none exactly
when no idle `can_execute` worker is registered. -/
theorem get_idle_worker_spec (coordOwner : String)
    (reg : List (String × Session)) (sub : String) (hsub : sub ≠ "")
    (hco : coordOwner ≠ "") :
    (∀ wid, get_idle_worker_id coordOwner reg (some sub) = some wid →
      ∃ s, (wid, s) ∈ reg ∧ s.status = "idle" ∧ sessionCanExecute s = true)
    ∧ ((∃ p ∈ reg, eligiblePred p ∧ p.2.ownerId ≠ sub ∧
          p.2.ownerId ≠ coordOwner) →
        ∃ wid s, get_idle_worker_id coordOwner reg (some sub) = some wid ∧
          (wid, s) ∈ reg ∧ eligiblePred (wid, s) ∧ s.ownerId ≠ sub ∧
          s.ownerId ≠ coordOwner)
    ∧ ((¬ ∃ p ∈ reg, eligiblePred p ∧ p.2.ownerId ≠ sub ∧
          p.2.ownerId ≠ coordOwner) →
        (∃ p ∈ reg, eligiblePred p ∧ p.2.ownerId ≠ sub ∧
          p.2.ownerId = coordOwner) →
        ∃ wid s, get_idle_worker_id coordOwner reg (some sub) = some wid ∧
          (wid, s) ∈ reg ∧ eligiblePred (wid, s) ∧ s.ownerId = coordOwner)
    ∧ ((¬ ∃ p ∈ reg, eligiblePred p ∧ p.2.ownerId ≠ sub ∧
          p.2.ownerId ≠ coordOwner) →
        (¬ ∃ p ∈ reg, eligiblePred p ∧ p.2.ownerId ≠ sub ∧
          p.2.ownerId = coordOwner) →
        (∃ p ∈ reg, eligiblePred p ∧ p.2.ownerId = sub) →
        ∃ wid s, get_idle_worker_id coordOwner reg (some sub) = some wid ∧
          (wid, s) ∈ reg ∧ eligiblePred (wid, s) ∧ s.ownerId = sub)
    ∧ (get_idle_worker_id coordOwner reg (some sub) = none ↔
        ¬ ∃ p ∈ reg, eligiblePred p) := by
  have hres : get_idle_worker_id coordOwner reg (some sub) =
      (match (otherFilter coordOwner (some sub) reg).map Prod.fst with
       | wid :: _ => some wid
       | [] =>
         match (coordFilter coordOwner (some sub) reg).map Prod.fst with
         | wid :: _ => some wid
         | [] =>
           match (ownerFilter (some sub) reg).map Prod.fst with
           | wid :: _ => some wid
           | [] => none) := by
    rw [get_idle_worker_id, collectBuckets_eq]
  have hmem_other : ∀ q ∈ otherFilter coordOwner (some sub) reg,
      q ∈ reg ∧ eligiblePred q ∧ q.2.ownerId ≠ sub ∧ q.2.ownerId ≠ coordOwner := by
    intro q hq
    have h := List.mem_filter.mp hq
    have hpred := of_decide_eq_true h.2
    have hb := (bucketOtherPred_iff hsub hco q).mp hpred.2
    exact ⟨h.1, hpred.1, hb.1, hb.2⟩
  have hmem_coord : ∀ q ∈ coordFilter coordOwner (some sub) reg,
      q ∈ reg ∧ eligiblePred q ∧ q.2.ownerId ≠ sub ∧ q.2.ownerId = coordOwner := by
    intro q hq
    have h := List.mem_filter.mp hq
    have hpred := of_decide_eq_true h.2
    have hb := (bucketCoordPred_iff hco q).mp hpred.2
    exact ⟨h.1, hpred.1, hb.1, hb.2⟩
  have hmem_owner : ∀ q ∈ ownerFilter (some sub) reg,
      q ∈ reg ∧ eligiblePred q ∧ q.2.ownerId = sub := by
    intro q hq
    have h := List.mem_filter.mp hq
    have hpred := of_decide_eq_true h.2
    exact ⟨h.1, hpred.1, (bucketOwnerPred_iff hsub q).mp hpred.2⟩
  have hempty_other : otherFilter coordOwner (some sub) reg = [] →
      ¬ ∃ p ∈ reg, eligiblePred p ∧ p.2.ownerId ≠ sub ∧
        p.2.ownerId ≠ coordOwner := by
    rintro hnil ⟨p, hp, he, hs, hc⟩
    have hin : p ∈ otherFilter coordOwner (some sub) reg :=
      List.mem_filter.mpr ⟨hp,
        decide_eq_true ⟨he, (bucketOtherPred_iff hsub hco p).mpr ⟨hs, hc⟩⟩⟩
    rw [hnil] at hin
    exact absurd hin (List.not_mem_nil p)
  have hempty_coord : coordFilter coordOwner (some sub) reg = [] →
      ¬ ∃ p ∈ reg, eligiblePred p ∧ p.2.ownerId ≠ sub ∧
        p.2.ownerId = coordOwner := by
    rintro hnil ⟨p, hp, he, hs, hc⟩
    have hin : p ∈ coordFilter coordOwner (some sub) reg :=
      List.mem_filter.mpr ⟨hp,
        decide_eq_true ⟨he, (bucketCoordPred_iff hco p).mpr ⟨hs, hc⟩⟩⟩
    rw [hnil] at hin
    exact absurd hin (List.not_mem_nil p)
  have hempty_owner : ownerFilter (some sub) reg = [] →
      ¬ ∃ p ∈ reg, eligiblePred p ∧ p.2.ownerId = sub := by
    rintro hnil ⟨p, hp, he, hs⟩
    have hin : p ∈ ownerFilter (some sub) reg :=
      List.mem_filter.mpr ⟨hp,
        decide_eq_true ⟨he, (bucketOwnerPred_iff hsub p).mpr hs⟩⟩
    rw [hnil] at hin
    exact absurd hin (List.not_mem_nil p)
  rcases hF1 : otherFilter coordOwner (some sub) reg with _ | ⟨q1, r1⟩
  case cons =>
    obtain ⟨wid1, s1⟩ := q1
    have hq1 := hmem_other (wid1, s1) (by rw [hF1]; exact List.mem_cons_self _ _)
    simp only [hF1, List.map_cons] at hres
    refine ⟨?_, ?_, ?_, ?_, ?_⟩
    · intro wid hwid
      rw [hres] at hwid
      rw [Option.some_inj] at hwid
      exact ⟨s1, by rw [← hwid]; exact hq1.1, hq1.2.1.1, hq1.2.1.2⟩
    · intro _
      exact ⟨wid1, s1, hres, hq1.1, hq1.2.1, hq1.2.2.1, hq1.2.2.2⟩
    · intro hno _
      exact absurd ⟨(wid1, s1), hq1.1, hq1.2.1, hq1.2.2.1, hq1.2.2.2⟩ hno
    · intro hno _ _
      exact absurd ⟨(wid1, s1), hq1.1, hq1.2.1, hq1.2.2.1, hq1.2.2.2⟩ hno
    · constructor
      · intro hnone
        rw [hres] at hnone
        exact absurd hnone (by simp)
      · intro hne
        exact absurd ⟨(wid1, s1), hq1.1, hq1.2.1⟩ hne
  case nil =>
  rcases hF2 : coordFilter coordOwner (some sub) reg with _ | ⟨q2, r2⟩
  case cons =>
    obtain ⟨wid2, s2⟩ := q2
    have hq2 := hmem_coord (wid2, s2) (by rw [hF2]; exact List.mem_cons_self _ _)
    simp only [hF1, hF2, List.map_nil, List.map_cons] at hres
    refine ⟨?_, ?_, ?_, ?_, ?_⟩
    · intro wid hwid
      rw [hres] at hwid
      rw [Option.some_inj] at hwid
      exact ⟨s2, by rw [← hwid]; exact hq2.1, hq2.2.1.1, hq2.2.1.2⟩
    · intro hex
      exact absurd hex (hempty_other hF1)
    · intro _ _
      exact ⟨wid2, s2, hres, hq2.1, hq2.2.1, hq2.2.2.2⟩
    · intro _ hno _
      exact absurd ⟨(wid2, s2), hq2.1, hq2.2.1, hq2.2.2.1, hq2.2.2.2⟩ hno
    · constructor
      · intro hnone
        rw [hres] at hnone
        exact absurd hnone (by simp)
      · intro hne
        exact absurd ⟨(wid2, s2), hq2.1, hq2.2.1⟩ hne
  case nil =>
  rcases hF3 : ownerFilter (some sub) reg with _ | ⟨q3, r3⟩
  case cons =>
    obtain ⟨wid3, s3⟩ := q3
    have hq3 := hmem_owner (wid3, s3) (by rw [hF3]; exact List.mem_cons_self _ _)
    simp only [hF1, hF2, hF3, List.map_nil, List.map_cons] at hres
    refine ⟨?_, ?_, ?_, ?_, ?_⟩
    · intro wid hwid
      rw [hres] at hwid
      rw [Option.some_inj] at hwid
      exact ⟨s3, by rw [← hwid]; exact hq3.1, hq3.2.1.1, hq3.2.1.2⟩
    · intro hex
      exact absurd hex (hempty_other hF1)
    · intro _ hex
      exact absurd hex (hempty_coord hF2)
    · intro _ _ _
      exact ⟨wid3, s3, hres, hq3.1, hq3.2.1, hq3.2.2⟩
    · constructor
      · intro hnone
        rw [hres] at hnone
        exact absurd hnone (by simp)
      · intro hne
        exact absurd ⟨(wid3, s3), hq3.1, hq3.2.1⟩ hne
  case nil =>
  simp only [hF1, hF2, hF3, List.map_nil] at hres
  have hnoelig : ¬ ∃ p ∈ reg, eligiblePred p := by
    rintro ⟨p, hp, he⟩
    by_cases h2 : bucketOwnerPred (some sub) p
    · exact hempty_owner hF3 ⟨p, hp, he, (bucketOwnerPred_iff hsub p).mp h2⟩
    · by_cases h3 : p.2.ownerId ≠ "" ∧ p.2.ownerId = coordOwner
      · have hb := (bucketCoordPred_iff hco p).mp ⟨h2, h3.1, h3.2⟩
        exact hempty_coord hF2 ⟨p, hp, he, hb.1, hb.2⟩
      · have hb := (bucketOtherPred_iff hsub hco p).mp ⟨h2, h3⟩
        exact hempty_other hF1 ⟨p, hp, he, hb.1, hb.2⟩
  refine ⟨?_, ?_, ?_, ?_, ?_⟩
  · intro wid hwid
    rw [hres] at hwid
    exact absurd hwid (by simp)
  · rintro ⟨p, hp, he, _⟩
    exact absurd ⟨p, hp, he⟩ hnoelig
  · rintro _ ⟨p, hp, he, _⟩
    exact absurd ⟨p, hp, he⟩ hnoelig
  · rintro _ _ ⟨p, hp, he, _⟩
    exact absurd ⟨p, hp, he⟩ hnoelig
  · exact ⟨fun _ => hnoelig, fun _ => hres⟩

/-- Scenario S3 registry: alice's own worker w1 and carol's worker w2, both
idle. -/
def selfAndOtherReg : List (String × Session) :=
  [("w1", ⟨1, ⟨some 4, false, none⟩, "idle", 0, "alice"⟩),
   ("w2", ⟨2, ⟨some 2, false, none⟩, "idle", 0, "carol"⟩)]

/-- C4 witness: with alice submitting, the selection returns carol's worker,
an idle `can_execute` worker owned by neither alice nor the coordinator. -/
theorem get_idle_worker_spec_witness :
    (("alice" : String) ≠ "") ∧ ((COORDINATOR_OWNER : String) ≠ "") ∧
    (∃ p ∈ selfAndOtherReg, eligiblePred p ∧ p.2.ownerId ≠ "alice" ∧
      p.2.ownerId ≠ COORDINATOR_OWNER) ∧
    (∃ wid s, get_idle_worker_id COORDINATOR_OWNER selfAndOtherReg
        (some "alice") = some wid ∧
      (wid, s) ∈ selfAndOtherReg ∧ eligiblePred (wid, s) ∧ s.ownerId ≠ "alice" ∧
      s.ownerId ≠ COORDINATOR_OWNER) :=
  ⟨by decide, by decide, by decide,
    (get_idle_worker_spec COORDINATOR_OWNER selfAndOtherReg "alice" (by decide)
      (by decide)).2.1 (by decide)⟩

/-- A coordinator state reached by registering worker w1, banning it through
the admin restriction, and letting it reconnect: the hello path performs no
restriction check, so w1 is back in the registry as idle while its stored
restriction is still `banned`. -/
def bannedReconnectCoord : Coord :=
  let db0 := db_upsert_worker emptyDb 0 "w1" "10.0.0.1" ⟨some 4, false, none⟩
    "idle" "bob" "tok"
  let db1 := db_set_worker_restriction db0 "w1" (some "banned")
  let db2 := db_upsert_worker db1 1 "w1" "10.0.0.1" ⟨some 4, false, none⟩
    "idle" "bob" "tok"
  { db := db2, reg := register_worker_ws [] 1 "w1" 7 ⟨some 4, false, none⟩ "bob",
    queue := [] }

/-- C4 counterexample: `get_idle_worker_id` consults only the in-memory
registry, never the stored restriction — it returns worker w1 although w1's
persisted restriction is `banned`, refuting the claim that every selected
worker has restriction none. -/
theorem get_idle_worker_banned_cex :
    get_idle_worker_id COORDINATOR_OWNER bannedReconnectCoord.reg
      (some "alice") = some "w1" ∧
    (lookupKey bannedReconnectCoord.db.workers "w1").map WorkerRow.restriction =
      some (some "banned") := by
  decide

/-! ## Claim C9 -/

/-- Jobs not present in the queue are untouched by the dispatch loop: the loop
only mutates the rows of job ids it dequeues. -/
theorem dispatchLoop_jobs_frame (t : ℚ) (sendOk : String → Bool) (j : String) :
    ∀ (fuel : Nat) (c : Coord), j ∉ c.queue →
      lookupKey (dispatchLoop t sendOk c fuel).db.jobs j = lookupKey c.db.jobs j := by
  intro fuel
  induction fuel with
  | zero => intro c _; rfl
  | succ n ih =>
      intro c hj
      rcases hq : c.queue with _ | ⟨jobId, rest⟩
      · simp only [dispatchLoop, hq]
      · have hjne : j ≠ jobId := by
          intro hx
          rw [hq, hx] at hj
          exact hj (List.mem_cons_self _ _)
        have hjr : j ∉ rest := by
          intro hx
          rw [hq] at hj
          exact hj (List.mem_cons_of_mem _ hx)
        rcases hw : firstIdle c.reg with _ | wid
        · simp only [dispatchLoop, hq, hw]
        · rcases hjob : db_get_job c.db jobId with _ | job
          · simp only [dispatchLoop, hq, hw, hjob]
            exact ih { c with queue := rest } hjr
          · rcases hsend : sendOk wid with _ | _
            · simp only [dispatchLoop, hq, hw, hjob, hsend, Bool.false_eq_true,
                if_false, db_set_worker_status, db_set_job_assigned]
              rw [lookupKey_updateRows_ne _ _ _ _ hjne,
                lookupKey_updateRows_ne _ _ _ _ hjne]
            · simp only [dispatchLoop, hq, hw, hjob, hsend, if_true,
                db_set_worker_status, db_set_job_assigned]
              rw [ih _ hjr]
              exact lookupKey_updateRows_ne _ _ _ _ hjne

/-- Shallow embedding of the `job_result` branch of `coodinate2.handle_worker`
(and the per-message bookkeeping just above it): refresh the worker's
last-seen and mirror its in-memory status to the store, parse the exit code
(`int(msg.get("exit_code") or 0)` — an absent field becomes 0), update the job
row when a job id is present, mark the worker idle in memory and store, then
trigger the dispatcher. -/
def handle_job_result (c : Coord) (t : ℚ) (workerId : String)
    (jobId : Option String) (exitCode : Option Int) (stdout stderr : String)
    (sendOk : String → Bool) : Coord :=
  let reg0 := updateRows c.reg workerId (fun s => { s with lastSeen := t })
  let wstatus := match lookupKey reg0 workerId with
    | some s => s.status
    | none => "idle"
  let db0 := db_set_worker_status c.db t workerId wstatus
  let exit := exitCode.getD 0
  let db1 := match jobId with
    | none => db0
    | some j => db_set_job_completed db0 t j stdout stderr exit
  let reg1 := updateRows reg0 workerId (fun s => { s with status := "idle" })
  let db2 := db_set_worker_status db1 t workerId "idle"
  dispatch { db := db2, reg := reg1, queue := c.queue } t sendOk

/-- C9: on receipt of a `job_result` frame for a known job (whose id is not
sitting in the queue), the persisted status becomes `completed` when the
reported exit code is 0 and `failed` otherwise, and the reported stdout,
stderr and a completion timestamp are recorded on the job row. -/
theorem job_result_records_outcome (c : Coord) (t : ℚ) (workerId jobId : String)
    (e : Int) (stdout stderr : String) (sendOk : String → Bool) (job : JobRow)
    (hjob : lookupKey c.db.jobs jobId = some job) (hq : jobId ∉ c.queue) :
    lookupKey (handle_job_result c t workerId (some jobId) (some e) stdout
        stderr sendOk).db.jobs jobId =
      some { job with status := if e = 0 then "completed" else "failed",
                      completedAt := some t, stdout := stdout,
                      stderr := stderr } := by
  rw [handle_job_result]
  simp only [Option.getD_some, dispatch]
  refine Eq.trans (dispatchLoop_jobs_frame t sendOk jobId _ _ ?_) ?_
  · exact hq
  · simp only [db_set_worker_status, db_set_job_completed]
    rw [lookupKey_updateRows_self, hjob]
    rfl

/-! ## Claim C3 -/

theorem db_set_worker_status_jobs (db : Db) (t : ℚ) (workerId status : String) :
    (db_set_worker_status db t workerId status).jobs = db.jobs := rfl

theorem ensure_user_fst_jobs (db : Db) (t : ℚ) (u : String) (i : ℚ) :
    ((ensure_user db t u i).1).jobs = db.jobs := by
  rw [ensure_user]
  split <;> rfl

theorem credit_jobs (db : Db) (t : ℚ) (u : String) (a : ℚ) :
    (credit db t u a).jobs = db.jobs := by
  rw [credit]
  split
  · rfl
  · exact ensure_user_fst_jobs db t u 0

/-- Settlement configuration: cost rate per second, constant base, and the
fraction of the cost rewarded to the worker owner. -/
structure SettleCfg where
  rate : ℚ
  base : ℚ
  rewardFraction : ℚ
  deriving DecidableEq, Repr

/-- Modelled from the spec: `coordinator/scheduler.py` (`on_job_result`, the
settlement step of section 4.7) is imported by `coordinator/websocket.py` and
`coordinator/main.py` but the module is not under src.  Per sections 4.7 and
8: if the store already shows the job terminal the frame is ignored;
otherwise the time cost (rate times duration plus base, clamped to
`[0, reserved]`) is computed, the job is updated through the store's
`db_set_job_completed`, the surplus reserve is refunded to the submitter, the
reward fraction of the cost is credited to the executing worker's recorded
owner, and the worker is marked idle in registry and store.  The dispatcher
re-trigger of step 5 only touches queued jobs and is not part of the
settlement itself. -/
def on_job_result (cfg : SettleCfg) (c : Coord) (t : ℚ)
    (jobId workerId : String) (exitCode : Int) (stdout stderr : String)
    (duration : ℚ) : Coord :=
  match lookupKey c.db.jobs jobId with
  | none => c
  | some job =>
      if job.status = "completed" ∨ job.status = "failed" then c
      else
        let timeCost := max 0 (min (cfg.rate * duration + cfg.base)
          job.reservedCost)
        let db1 := db_set_job_completed c.db t jobId stdout stderr exitCode
        let db2 := credit db1 t job.userId (job.reservedCost - timeCost)
        let owner := match lookupKey c.db.workers workerId with
          | some w => w.ownerId
          | none => ""
        let db3 := if owner ≠ "" then
            credit db2 t owner (cfg.rewardFraction * timeCost)
          else db2
        let reg1 := updateRows c.reg workerId
          (fun s => { s with status := "idle" })
        let db4 := db_set_worker_status db3 t workerId "idle"
        { db := db4, reg := reg1, queue := c.queue }

/-- C3: settlement is idempotent per job id — a `job_result` frame for a job
whose persisted status is already terminal leaves the whole state (balances
included) untouched; and for a non-terminal job, processing the same frame
twice performs exactly one status transition and one set of balance changes:
the first call makes the status terminal and the second call is the
identity. -/
theorem settlement_idempotent (cfg : SettleCfg) (c : Coord) (t t2 : ℚ)
    (jobId workerId : String) (e : Int) (stdout stderr : String)
    (duration : ℚ) (job : JobRow)
    (hjob : lookupKey c.db.jobs jobId = some job) :
    ((job.status = "completed" ∨ job.status = "failed") →
      on_job_result cfg c t jobId workerId e stdout stderr duration = c)
    ∧ (¬ (job.status = "completed" ∨ job.status = "failed") →
        (lookupKey (on_job_result cfg c t jobId workerId e stdout stderr
            duration).db.jobs jobId).map JobRow.status =
          some (if e = 0 then "completed" else "failed")
        ∧ on_job_result cfg (on_job_result cfg c t jobId workerId e stdout
            stderr duration) t2 jobId workerId e stdout stderr duration =
          on_job_result cfg c t jobId workerId e stdout stderr duration) := by
  constructor
  · intro hterm
    simp only [on_job_result, hjob]
    rw [if_pos hterm]
  · intro hterm
    have hjob1 : lookupKey (on_job_result cfg c t jobId workerId e stdout
        stderr duration).db.jobs jobId =
        some { job with status := if e = 0 then "completed" else "failed",
                        completedAt := some t, stdout := stdout,
                        stderr := stderr } := by
      simp only [on_job_result, hjob]
      rw [if_neg hterm]
      simp only [apply_ite Db.jobs, credit_jobs, db_set_worker_status_jobs,
        ite_self, db_set_job_completed]
      rw [lookupKey_updateRows_self, hjob]
      rfl
    refine ⟨?_, ?_⟩
    · rw [hjob1]
      rfl
    · generalize hc1 : on_job_result cfg c t jobId workerId e stdout stderr
        duration = c1 at hjob1 ⊢
      simp only [on_job_result, hjob1]
      rw [if_pos (by by_cases he : e = 0 <;> simp [he])]

/-- A coordinator holding one running job j1 assigned to worker w1 and an
empty queue. -/
def runningJobCoord : Coord :=
  { db := { emptyDb with
      jobs := [("j1", ⟨"alice", "print(1)", "python", "running", some "w1", 0,
        none, "", "", 6⟩)],
      workers := [("w1", ⟨"10.0.0.1", 4, 0, "busy", 0, "bob", "tok", none⟩)] },
    reg := [("w1", ⟨1, ⟨some 4, false, none⟩, "busy", 0, "bob"⟩)],
    queue := [] }

/-- C9 witness: a `job_result` with exit code 0 for running job j1 records
status `completed` with the reported stdout, stderr and the completion
timestamp. -/
theorem job_result_records_outcome_witness :
    lookupKey runningJobCoord.db.jobs "j1" =
      some ⟨"alice", "print(1)", "python", "running", some "w1", 0, none, "",
        "", 6⟩ ∧
    ("j1" ∉ runningJobCoord.queue) ∧
    lookupKey (handle_job_result runningJobCoord 3 "w1" (some "j1") (some 0)
        "out" "err" (fun _ => true)).db.jobs "j1" =
      some ⟨"alice", "print(1)", "python", "completed", some "w1", 0, some 3,
        "out", "err", 6⟩ :=
  ⟨rfl, by decide, by
    rw [job_result_records_outcome runningJobCoord 3 "w1" "j1" 0 "out" "err"
      (fun _ => true)
      ⟨"alice", "print(1)", "python", "running", some "w1", 0, none, "", "", 6⟩
      rfl (by decide)]
    rfl⟩

/-- C3 witness: settling running job j1 once makes it `completed`; feeding the
identical `job_result` a second time is the identity on the whole state. -/
theorem settlement_idempotent_witness :
    lookupKey runningJobCoord.db.jobs "j1" =
      some ⟨"alice", "print(1)", "python", "running", some "w1", 0, none, "",
        "", 6⟩ ∧
    ¬ (("running" : String) = "completed" ∨ ("running" : String) = "failed") ∧
    ((lookupKey (on_job_result ⟨1/10, 0, 8/10⟩ runningJobCoord 3 "j1" "w1" 0
        "out" "err" 2).db.jobs "j1").map JobRow.status =
      some (if (0 : Int) = 0 then "completed" else "failed") ∧
     on_job_result ⟨1/10, 0, 8/10⟩ (on_job_result ⟨1/10, 0, 8/10⟩
        runningJobCoord 3 "j1" "w1" 0 "out" "err" 2) 4 "j1" "w1" 0 "out" "err"
        2 =
      on_job_result ⟨1/10, 0, 8/10⟩ runningJobCoord 3 "j1" "w1" 0 "out" "err"
        2) :=
  ⟨rfl, by decide,
    (settlement_idempotent ⟨1/10, 0, 8/10⟩ runningJobCoord 3 4 "j1" "w1" 0
      "out" "err" 2
      ⟨"alice", "print(1)", "python", "running", some "w1", 0, none, "", "", 6⟩
      rfl).2 (by decide)⟩

/-! ## Claim C7 -/

/-- Outcome of a `hello` frame: a `hello_ack` for the registered worker id, or
an `auth_error` followed by a close with the given code. -/
inductive HelloOutcome where
  | ack (workerId : String)
  | authError (closeCode : Nat)
  deriving DecidableEq, Repr

/-- Successful registration tail of the hello handler: register the session
under the lock, upsert the worker row, reply `hello_ack`.  (The dispatch
trigger that follows the ack mutates only queued jobs and session statuses,
not the registration itself.) -/
def helloRegister (c : Coord) (t : ℚ) (peerIp : String) (wsId : Nat)
    (workerId : String) (caps : Caps) (ownerId authToken : String) :
    Coord × HelloOutcome :=
  let reg1 := register_worker_ws c.reg t workerId wsId caps ownerId
  let db1 := db_upsert_worker c.db t workerId peerIp caps "idle" ownerId
    authToken
  ({ db := db1, reg := reg1, queue := c.queue }, .ack workerId)

/-- Shallow embedding of the `hello` branch of
`coordinator_websocket_FIXED.handle_worker`: with both owner and token
supplied, a matching credential reuses any stored worker for that pair (else
the supplied id); a known owner with a mismatched token gets `auth_error` and
close 4401 with nothing registered; an unknown owner is created by the
registration path; without credentials the legacy unauthenticated path
registers directly.  `freshUuid` stands for the `uuid4()` drawn when the
frame carries no worker id. -/
def handle_hello (c : Coord) (t : ℚ) (peerIp freshUuid : String) (wsId : Nat)
    (msgWorkerId : String) (caps : Caps) (ownerId authToken : String) :
    Coord × HelloOutcome :=
  let incoming := if msgWorkerId = "" then freshUuid else msgWorkerId
  if authToken ≠ "" ∧ ownerId ≠ "" then
    if db_verify_user_auth c.db ownerId authToken then
      let workerId := match db_get_worker_by_auth c.db ownerId authToken with
        | some w => w.1
        | none => incoming
      helloRegister c t peerIp wsId workerId caps ownerId authToken
    else
      if (lookupKey c.db.userAuth ownerId).isSome then
        (c, .authError 4401)
      else
        helloRegister c t peerIp wsId incoming caps ownerId authToken
  else
    helloRegister c t peerIp wsId incoming caps ownerId authToken

/-- C7: a hello whose owner names an existing user but whose token differs
from the stored one is answered with `auth_error` and close code 4401, and
the coordinator state is returned completely unchanged: no session is
registered and no worker row (or any other row) is modified. -/
theorem hello_wrong_token_rejected (c : Coord) (t : ℚ)
    (peerIp freshUuid : String) (wsId : Nat) (msgWorkerId : String)
    (caps : Caps) (ownerId authToken : String) (htok : authToken ≠ "")
    (howner : ownerId ≠ "") (r : UserAuthRow)
    (hrow : lookupKey c.db.userAuth ownerId = some r)
    (hmismatch : r.authToken ≠ authToken) :
    handle_hello c t peerIp freshUuid wsId msgWorkerId caps ownerId authToken =
      (c, HelloOutcome.authError 4401) := by
  rw [handle_hello]
  rw [if_pos ⟨htok, howner⟩]
  have hv : db_verify_user_auth c.db ownerId authToken = false := by
    simp only [db_verify_user_auth, hrow]
    simp [hmismatch]
  rw [hv]
  simp [hrow]

/-- A store where user alice exists with credential token T1. -/
def aliceAuthCoord : Coord :=
  { db := { emptyDb with userAuth := [("alice", ⟨"T1", 0, 0⟩)] }, reg := [],
    queue := [] }

/-- C7 witness: scenario S5 — a hello with owner alice and token T2 against
stored token T1 yields `auth_error` with close 4401 and no state change. -/
theorem hello_wrong_token_rejected_witness :
    (("T2" : String) ≠ "") ∧ (("alice" : String) ≠ "") ∧
    lookupKey aliceAuthCoord.db.userAuth "alice" = some ⟨"T1", 0, 0⟩ ∧
    (("T1" : String) ≠ "T2") ∧
    handle_hello aliceAuthCoord 1 "10.0.0.9" "fresh-uuid" 5 "w1"
      ⟨some 4, false, none⟩ "alice" "T2" =
      (aliceAuthCoord, HelloOutcome.authError 4401) :=
  ⟨by decide, by decide, rfl, by decide,
    hello_wrong_token_rejected aliceAuthCoord 1 "10.0.0.9" "fresh-uuid" 5 "w1"
      ⟨some 4, false, none⟩ "alice" "T2" (by decide) (by decide) ⟨"T1", 0, 0⟩
      rfl (by decide)⟩

/-! ## Claim C8 -/

/-- Session-lifecycle events of `coordinator/websocket.py` `handle_worker`:
a successful hello (carrying the socket, capabilities, owner and arrival
time) and the `finally` cleanup that runs when a handler's connection
closes.  `wsId` on `closeEv` names the socket whose handler is closing. -/
inductive WsEvent where
  | helloEv (workerId : String) (wsId : Nat) (caps : Caps)
      (ownerId peerIp : String) (t : ℚ)
  | closeEv (workerId : String) (wsId : Nat) (t : ℚ)
  deriving DecidableEq, Repr

/-- One lifecycle step.  A hello registers the session under the lock
(`register_worker_ws`, a dict assignment that evicts any session held under
the id; `websocket.py` passes no owner to the registry) and upserts the
worker row.  A close pops the worker id from the registry and marks the row
offline — the cleanup never compares the registry entry against the closing
socket, so `wsId` is unused, exactly as in the source.  (The dispatch trigger
after `hello_ack` only mutates session statuses and queued jobs, never the
set of registered ids, and is omitted.) -/
def applyWsEvent (c : Coord) : WsEvent → Coord
  | .helloEv wid wsId caps owner ip t =>
      { c with reg := register_worker_ws c.reg t wid wsId caps "",
               db := db_upsert_worker c.db t wid ip caps "idle" owner "" }
  | .closeEv wid _ t =>
      { c with reg := unregister_worker_ws c.reg wid,
               db := db_set_worker_offline c.db t wid }

/-- A whole session history, run from a starting state. -/
def runWsEvents (c : Coord) : List WsEvent → Coord
  | [] => c
  | ev :: rest => runWsEvents (applyWsEvent c ev) rest

theorem runWsEvents_keysNodup (es : List WsEvent) :
    ∀ c : Coord, keysNodup c.reg → keysNodup (runWsEvents c es).reg := by
  induction es with
  | nil => intro c h; exact h
  | cons ev rest ih =>
      intro c h
      rw [runWsEvents]
      apply ih
      cases ev with
      | helloEv wid wsId caps owner ip t =>
          exact keysNodup_dictInsert c.reg wid _ h
      | closeEv wid wsId t =>
          exact keysNodup_removeKey c.reg wid h

/-- C8 (amended): in every state reached by a session history from the empty
coordinator, at most one session is registered per worker id; a second
successful hello for an id replaces (evicts) the previous session, making the
new session the registered one; however, the cleanup run when any connection
for that id closes — including the evicted session's — removes the id from
the registry entirely and marks the stored worker row offline, regardless of
which socket closed. -/
theorem registry_single_session (es : List WsEvent) (wid : String) :
    ((runWsEvents emptyCoord es).reg.map Prod.fst).count wid ≤ 1
    ∧ (∀ (c : Coord) (wsId2 : Nat) (caps2 : Caps) (owner2 ip2 : String)
        (t2 : ℚ),
        lookupKey (applyWsEvent c
            (.helloEv wid wsId2 caps2 owner2 ip2 t2)).reg wid =
          some ⟨wsId2, caps2, "idle", t2, ""⟩)
    ∧ (∀ (c : Coord) (wsId3 : Nat) (t3 : ℚ),
        lookupKey (applyWsEvent c (.closeEv wid wsId3 t3)).reg wid = none
        ∧ (lookupKey (applyWsEvent c
              (.closeEv wid wsId3 t3)).db.workers wid).map WorkerRow.status =
            (lookupKey c.db.workers wid).map (fun _ => "offline")) := by
  refine ⟨?_, ?_, ?_⟩
  · have hnodup : keysNodup (runWsEvents emptyCoord es).reg :=
      runWsEvents_keysNodup es emptyCoord (by simp [keysNodup, emptyCoord])
    exact List.nodup_iff_count_le_one.mp hnodup wid
  · intro c wsId2 caps2 owner2 ip2 t2
    exact lookupKey_dictInsert_self c.reg wid _
  · intro c wsId3 t3
    refine ⟨lookupKey_removeKey_self c.reg wid, ?_⟩
    simp only [applyWsEvent, db_set_worker_offline, db_set_worker_status]
    rw [lookupKey_updateRows_self]
    cases lookupKey c.db.workers wid <;> rfl

/-- The trace refuting the last part of the claim: worker w1 connects on
socket 1, reconnects on socket 2 (evicting the first session), and then the
first session's connection closes. -/
def evictTrace : List WsEvent :=
  [.helloEv "w1" 1 ⟨some 4, false, none⟩ "bob" "10.0.0.1" 0,
   .helloEv "w1" 2 ⟨some 4, false, none⟩ "bob" "10.0.0.1" 1,
   .closeEv "w1" 1 2]

/-- C8 counterexample: after the second hello the session on socket 2 is the
registered one, but when the evicted first session's connection closes, the
cleanup removes worker w1 from the registry (dropping the newer session,
which never disconnected) and marks the worker offline in the store. -/
theorem stale_close_removes_new_session_cex :
    lookupKey (runWsEvents emptyCoord (evictTrace.take 2)).reg "w1" =
      some ⟨2, ⟨some 4, false, none⟩, "idle", 1, ""⟩ ∧
    lookupKey (runWsEvents emptyCoord evictTrace).reg "w1" = none ∧
    (lookupKey (runWsEvents emptyCoord evictTrace).db.workers "w1").map
      WorkerRow.status = some "offline" := by
  decide

/-! ## Claim C10 -/

theorem lookupKey_append_single_of_none {α : Type} (rows : List (String × α))
    (k : String) (v : α) (h : lookupKey rows k = none) :
    lookupKey (rows ++ [(k, v)]) k = some v := by
  induction rows with
  | nil => rw [List.nil_append, lookupKey, if_pos rfl]
  | cons p rest ih =>
      obtain ⟨k', v'⟩ := p
      by_cases hk : k' = k
      · rw [lookupKey, if_pos hk] at h
        exact absurd h (by simp)
      · rw [lookupKey, if_neg hk] at h
        rw [List.cons_append, lookupKey, if_neg hk]
        exact ih h

theorem db_register_user_token (db : Db) (t : ℚ) (u tok : String) :
    (lookupKey (db_register_user db t u tok).userAuth u).map
      (fun r => (r.authToken, r.lastLogin)) = some (tok, t) := by
  rcases h : lookupKey db.userAuth u with _ | r
  · simp only [db_register_user, h]
    rw [lookupKey_append_single_of_none db.userAuth u _ h]
    rfl
  · simp only [db_register_user, h]
    rw [lookupKey_updateRows_self, h]
    rfl

/-- C10: whenever `db_upsert_worker` runs with a non-empty owner and a
non-empty token, the `user_auth` row of that owner ends up holding exactly
the supplied token with `last_login` set to the call time — any previously
stored token for the user is overwritten (the database `db` is arbitrary). -/
theorem db_upsert_worker_overwrites_token (db : Db) (t : ℚ)
    (workerId ip : String) (caps : Caps) (status ownerId authToken : String)
    (howner : ownerId ≠ "") (htok : authToken ≠ "") :
    (lookupKey (db_upsert_worker db t workerId ip caps status ownerId
        authToken).userAuth ownerId).map
      (fun r => (r.authToken, r.lastLogin)) = some (authToken, t) := by
  rw [db_upsert_worker]
  rw [if_pos ⟨howner, htok⟩]
  rcases hm : lookupKey (db_register_user db t ownerId authToken).workers
      workerId with _ | w
  · simp only [hm]
    exact db_register_user_token db t ownerId authToken
  · simp only [hm]
    exact db_register_user_token db t ownerId authToken

/-- A store where bob's credential token is OLD. -/
def bobOldTokenDb : Db :=
  { emptyDb with userAuth := [("bob", ⟨"OLD", 0, 0⟩)] }

/-- C10 witness: an authenticated upsert for a worker owned by bob with token
NEW replaces bob's stored token OLD and refreshes last_login. -/
theorem db_upsert_worker_overwrites_token_witness :
    (("bob" : String) ≠ "") ∧ (("NEW" : String) ≠ "") ∧
    lookupKey bobOldTokenDb.userAuth "bob" = some ⟨"OLD", 0, 0⟩ ∧
    (lookupKey (db_upsert_worker bobOldTokenDb 5 "w1" "10.0.0.1"
        ⟨some 4, false, none⟩ "idle" "bob" "NEW").userAuth "bob").map
      (fun r => (r.authToken, r.lastLogin)) = some ("NEW", 5) :=
  ⟨by decide, by decide, rfl,
    db_upsert_worker_overwrites_token bobOldTokenDb 5 "w1" "10.0.0.1"
      ⟨some 4, false, none⟩ "idle" "bob" "NEW" (by decide) (by decide)⟩

end GridX
